import Mathlib

set_option maxRecDepth 100000

unseal Rat.add Rat.mul Rat.inv Rat.sub

/-!
# Verification of `cellcutter/dataset.py`

A shallow embedding of the patch-extraction core (`Dataset` in
`src/cellcutter/dataset.py`) and proofs about it.  Pixel values are exact
rationals (`ℚ`) standing for the float values of the code; images are
functions from coordinates together with explicit dimensions; numpy slicing
(including its clamping of out-of-range and negative bounds) is modelled
explicitly.  Fallible operations (`__init__`'s shape validation,
`generator_with_label`'s missing-label error, and the numpy broadcasting
error reachable in `generator_within_area`) return `Except String`.
-/

/-- A 2-D grid of values with explicit height and width
(an `ndarray` of shape `(H, W)`). -/
structure Grid2 (α : Type) where
  H : Nat
  W : Nat
  pix : Nat → Nat → α

/-- The raw data image accepted by `Dataset.__init__`: either a 2-D image or a
3-D image with a trailing channel axis. -/
inductive RawImg where
  | two (H W : Nat) (pix : Nat → Nat → ℚ)
  | three (H W C : Nat) (pix : Nat → Nat → Nat → ℚ)

/-- `ndarray.shape` of the raw image, as the list of axis lengths. -/
def RawImg.shape : RawImg → List Nat
  | .two H W _ => [H, W]
  | .three H W C _ => [H, W, C]

/-- `ndarray.shape` of a 2-D grid. -/
def Grid2.shape {α : Type} (g : Grid2 α) : List Nat := [g.H, g.W]

/-- Number of channels after `__normalize_img` adds the implicit channel axis
to a 2-D input (`img[..., np.newaxis]`). -/
def RawImg.channels : RawImg → Nat
  | .two _ _ _ => 1
  | .three _ _ C _ => C

/-- The raw image viewed with a channel axis: for a 2-D input this is the
`img[..., np.newaxis]` view used by `__normalize_img`. -/
def RawImg.pix3 : RawImg → (Nat → Nat → Nat → ℚ)
  | .two _ _ p => fun i j _ => p i j
  | .three _ _ _ p => p

/-- All values of one channel plane, row-major: the multiset over which
`np.min(img, axis=(0,1))` and `np.max(img, axis=(0,1))` reduce. -/
def gridValsQ (H W : Nat) (f : Nat → Nat → ℚ) : List ℚ :=
  (List.range H).flatMap fun i => (List.range W).map fun j => f i j

/-- Minimum of a list of rationals (`np.min`); 0 on the empty list, which the
code never reaches for a nonempty image. -/
def listMin : List ℚ → ℚ
  | [] => 0
  | x :: xs => xs.foldl min x

/-- Maximum of a list of rationals (`np.max`); 0 on the empty list. -/
def listMax : List ℚ → ℚ
  | [] => 0
  | x :: xs => xs.foldl max x

/-- One channel of `img -= np.min(img, axis=(0,1))`: the channel with its
global minimum subtracted. -/
def chanShift (H W : Nat) (pix : Nat → Nat → Nat → ℚ) (c : Nat) : Nat → Nat → ℚ :=
  fun i j => pix i j c - listMin (gridValsQ H W (fun i j => pix i j c))

/-- `Dataset.__normalize_img` after the channel axis is in place: subtract the
per-channel minimum, then divide by the per-channel maximum of the shifted
image (`img /= np.max(img, axis=(0,1))`).  Division by zero (a constant
channel) is the unspecified degenerate case of the code. -/
def normalize3 (H W : Nat) (pix : Nat → Nat → Nat → ℚ) : Nat → Nat → Nat → ℚ :=
  fun i j c => chanShift H W pix c i j / listMax (gridValsQ H W (chanShift H W pix c))

/-- Row sum of a boolean mask (`np.sum(img, axis=1)` at row `i`): how many
mask pixels row `i` holds. -/
def maskRowCount (W : Nat) (m : Nat → Nat → Bool) (i : Nat) : Nat :=
  ((List.range W).filter (fun j => m i j)).length

/-- Column sum of a boolean mask (`np.sum(img, axis=0)` at column `j`). -/
def maskColCount (H : Nat) (m : Nat → Nat → Bool) (j : Nat) : Nat :=
  ((List.range H).filter (fun i => m i j)).length

/-- Total mask pixel count (`np.sum(img)`). -/
def maskTotal (H W : Nat) (m : Nat → Nat → Bool) : Nat :=
  ((List.range H).map (maskRowCount W m)).sum

/-- `Dataset.__center_of_mass_as_int`: the mask-weighted centroid,
`int(rowsums · arange(d0) / s + .5)` on each axis.  `int()` truncates toward
zero; the value is nonnegative whenever the mask is nonempty, so truncation
is `Int.floor` there. -/
def centerOfMass (H W : Nat) (m : Nat → Nat → Bool) : Int × Int :=
  let s : ℚ := (maskTotal H W m : ℚ)
  (Int.floor ((((List.range H).map fun i => (maskRowCount W m i : ℚ) * i).sum) / s + 1/2),
   Int.floor ((((List.range W).map fun j => (maskColCount H m j : ℚ) * j).sum) / s + 1/2))

/-- `sorted((a, b, c))[1]`: the median of three integers. -/
def med3 (a b c : Int) : Int := max (min a b) (min (max a b) c)

/-- The spec's window clipping, in the spec's own words:
`clamp(desired, lo, hi)` along one axis. -/
def clamp (x lo hi : Int) : Int := max lo (min x hi)

/-- A Python slice bound normalized against axis length `n`: negative bounds
count from the end, and everything is clamped into `[0, n]`. -/
def sliceBound (n : Nat) (i : Int) : Nat :=
  if i < 0 then (i + n).toNat else min i.toNat n

/-- Number of elements selected by the Python slice `x[start : start + size]`
on an axis of length `n`. -/
def sliceLen (n : Nat) (start : Int) (size : Nat) : Nat :=
  sliceBound n (start + size) - sliceBound n start

/-- One stored Patch Record: the value of `Dataset.patch_set[ind]`.
`coord` is the top-left corner `(c0, c1)`; `data` is the sliced patch tensor
(raw channels then the marker mask as last channel), with its actual shape
`dataH × dataW × dataC`; `label` is the sliced binarized label patch when a
label image was supplied. -/
structure Patch where
  coord : Int × Int
  dataH : Nat
  dataW : Nat
  dataC : Nat
  data : Nat → Nat → Nat → ℚ
  label : Option (Nat → Nat → Nat)

/-- The body of one iteration of `Dataset.create_patches` for marker value
`ind`: centroid of the mask `marker == ind`, window top-left by
`sorted((0, c - crop_size // 2, d - crop_size))[1]`, then the numpy slices
`img[c0:c0+S, c1:c1+S, :]`, `marker[c0:c0+S, c1:c1+S] == ind` concatenated as
the last channel, and likewise for the label image. -/
def createPatch (H W C : Nat) (img : Nat → Nat → Nat → ℚ) (marker : Nat → Nat → Nat)
    (lab : Option (Nat → Nat → Nat)) (S : Nat) (ind : Nat) : Patch :=
  let cm := centerOfMass H W (fun i j => marker i j == ind)
  let c0 := med3 0 (cm.1 - (S / 2 : Nat)) ((H : Int) - S)
  let c1 := med3 0 (cm.2 - (S / 2 : Nat)) ((W : Int) - S)
  let r0 := sliceBound H c0
  let r1 := sliceBound W c1
  { coord := (c0, c1)
    dataH := sliceLen H c0 S
    dataW := sliceLen W c1 S
    dataC := C + 1
    data := fun i j ch =>
      if ch < C then img (r0 + i) (r1 + j) ch
      else if marker (r0 + i) (r1 + j) == ind then 1 else 0
    label := lab.map fun L => fun i j => if L (r0 + i) (r1 + j) == ind then 1 else 0 }

/-- All values of an integer grid, row-major. -/
def gridValsN (g : Grid2 Nat) : List Nat :=
  (List.range g.H).flatMap fun i => (List.range g.W).map fun j => g.pix i j

/-- The distinct values of a list, collected tail-recursively (first
occurrence kept, accumulated in front). -/
def dedupAcc : List Nat → List Nat → List Nat
  | acc, [] => acc
  | acc, x :: xs => if x ∈ acc then dedupAcc acc xs else dedupAcc (x :: acc) xs

/-- Insert a value into an ascending list of naturals, keeping it sorted. -/
def insertSorted (a : Nat) : List Nat → List Nat
  | [] => [a]
  | b :: bs => if a ≤ b then a :: b :: bs else b :: insertSorted a bs

/-- Insertion sort of a list of naturals, ascending. -/
def sortNat : List Nat → List Nat
  | [] => []
  | a :: as => insertSorted a (sortNat as)

/-- `np.unique`: the distinct values of a list in ascending order. -/
def uniqueSorted (l : List Nat) : List Nat := sortNat (dedupAcc [] l)

/-- `np.unique(self.marker_img)[1:]`: the distinct marker values in ascending
order with the first (smallest) one dropped — the code's way to "ignore 0". -/
def markerIndices (g : Grid2 Nat) : List Nat := (uniqueSorted (gridValsN g)).drop 1

/-- The spec's set of object identities: the distinct positive values of the
marker image, in ascending order. -/
def distinctPositives (g : Grid2 Nat) : List Nat :=
  (uniqueSorted (gridValsN g)).filter (fun v => v ≠ 0)

/-- The state a successfully constructed `Dataset` holds: the normalized
image (with its channel count), the marker image, the optional label image,
the crop size, and the eagerly built `patch_set` keyed by marker value in
`np.unique` order. -/
structure Dataset where
  H : Nat
  W : Nat
  C : Nat
  img : Nat → Nat → Nat → ℚ
  marker : Nat → Nat → Nat
  label_img : Option (Nat → Nat → Nat)
  crop_size : Nat
  patch_set : List (Nat × Patch)

/-- The constructor body after the shape validation passed (so the raw image
is 2-D with the marker's dimensions): normalize, store the images, and run
`create_patches` eagerly. -/
def Dataset.ofValidated (rawC : Nat) (rawPix : Nat → Nat → Nat → ℚ) (marker : Grid2 Nat)
    (lab : Option (Grid2 Nat)) (S : Nat) : Dataset :=
  let img := normalize3 marker.H marker.W rawPix
  { H := marker.H
    W := marker.W
    C := rawC
    img := img
    marker := marker.pix
    label_img := lab.map Grid2.pix
    crop_size := S
    patch_set := (markerIndices marker).map fun ind =>
      (ind, createPatch marker.H marker.W rawC img marker.pix (lab.map Grid2.pix) S ind) }

/-- The validation condition of `Dataset.__init__`:
`data_img.shape != marker_img.shape or (label_img is not None and
data_img.shape != label_img.shape)`.  Shapes are full shape tuples. -/
def shapeMismatch (raw : RawImg) (marker : Grid2 Nat) (lab : Option (Grid2 Nat)) : Bool :=
  raw.shape != marker.shape ||
    (match lab with
     | some L => raw.shape != L.shape
     | none => false)

/-- `Dataset.__init__`: raise `ValueError` on shape mismatch, otherwise build
the full dataset eagerly.  No crop-size check is performed. -/
def mkDataset (raw : RawImg) (marker : Grid2 Nat) (lab : Option (Grid2 Nat)) (S : Nat) :
    Except String Dataset :=
  if shapeMismatch raw marker lab then .error "Image size not match each other"
  else .ok (Dataset.ofValidated raw.channels raw.pix3 marker lab S)

/-- `Dataset.generator`: yields `self.patch_set[k]` for every key, in
insertion (i.e. ascending-key) order. -/
def Dataset.generator (ds : Dataset) : List Patch := ds.patch_set.map Prod.snd

/-- `Dataset.generator_with_label`: raises `ValueError('Lable Image not
set.')` when no label image was supplied, otherwise yields the `(data,
label)` pair of every stored record, dropping the coordinate. -/
def Dataset.generatorWithLabel (ds : Dataset) :
    Except String (List ((Nat → Nat → Nat → ℚ) × Option (Nat → Nat → Nat))) :=
  match ds.label_img with
  | none => .error "Lable Image not set."
  | some _ => .ok (ds.patch_set.map fun kp => (kp.2.data, kp.2.label))

/-- `Dataset.__is_within(coord, (r0, r1, h, w))`: is `coord` inside the
half-open rectangle with top-left `(r0, r1)` and extent `(h, w)`. -/
def isWithin (coord : Int × Int) (r0 r1 : Int) (h w : Nat) : Bool :=
  decide (r0 ≤ coord.1) && decide (coord.1 < r0 + h) &&
    decide (r1 ≤ coord.2) && decide (coord.2 < r1 + w)

/-- The `all_indices` filter of `Dataset.generator_within_area`: the stored
records whose coordinate lies within the sampled
`(a0, a1, area, area)` rectangle. -/
def Dataset.areaSelect (ds : Dataset) (area : Nat) (a0 a1 : Int) : List (Nat × Patch) :=
  ds.patch_set.filter fun kp => isWithin kp.2.coord a0 a1 area area

/-- numpy broadcasting compatibility of two shapes, aligned from the last
axis: paired axis lengths must be equal or 1. -/
def bcastRev : List Nat → List Nat → Bool
  | [], _ => true
  | _, [] => true
  | a :: as, b :: bs => (a == b || a == 1 || b == 1) && bcastRev as bs

/-- numpy broadcasting compatibility of two shapes. -/
def bcastCompat (s t : List Nat) : Bool := bcastRev s.reverse t.reverse

/-- The shape of `np.array(coords)` for a list of coordinate pairs: `(0,)`
when the list is empty, `(n, 2)` otherwise. -/
def coordArrayShape (coords : List (Int × Int)) : List Nat :=
  if coords.length = 0 then [0] else [coords.length, 2]

/-- One draw of `Dataset.generator_within_area` at anchor `(a0, a1)` (the
values `rng.integers` produced): filter the records whose coordinate falls in
the area, stack their data tensors (`tf.stack` along a new leading axis,
modelled as the list of tensors), and translate the coordinates by
`np.array(coords) - np.array([a0, a1])`.  With zero selected records the
coordinate array has shape `(0,)`, which numpy cannot broadcast against
`(2,)`, so the draw raises instead of yielding. -/
def Dataset.areaDraw (ds : Dataset) (area : Nat) (a0 a1 : Int) :
    Except String (List (Nat → Nat → Nat → ℚ) × List (Int × Int)) :=
  let sel := ds.areaSelect area a0 a1
  let coords := sel.map fun kp => kp.2.coord
  let data := sel.map fun kp => kp.2.data
  if bcastCompat (coordArrayShape coords) [2] then
    .ok (data, coords.map fun c => (c.1 - a0, c.2 - a1))
  else .error "operands could not be broadcast together"

/-! ## Concrete inputs used by witnesses and counterexamples -/

/-- A 10×10 non-constant raw image. -/
def raw10 : RawImg := .two 10 10 (fun i j => (i * 10 + j : ℚ))

/-- A 10×10 marker image with background 0 and a single object of identity 1
at pixel (8, 8). -/
def marker10 : Grid2 Nat := ⟨10, 10, fun i j => if i = 8 ∧ j = 8 then 1 else 0⟩

/-- The dataset built from `raw10` and `marker10` with crop size 4 and no
label image; its single stored record has coordinate (6, 6). -/
def ds10 : Dataset := Dataset.ofValidated 1 raw10.pix3 marker10 none 4

/-- The dataset built from `raw10` and `marker10` with `marker10` also
supplied as the label image. -/
def dsL10 : Dataset := Dataset.ofValidated 1 raw10.pix3 marker10 (some marker10) 4

/-- A 4×4 marker image with a single object of identity 1 at pixel (1, 1). -/
def marker4 : Grid2 Nat := ⟨4, 4, fun i j => if i = 1 ∧ j = 1 then 1 else 0⟩

/-- A 4×4 non-constant raw image. -/
def raw4 : RawImg := .two 4 4 (fun i _ => (i : ℚ))

/-- The dataset built from the 4×4 images with crop size 64 (larger than the
image): construction performs no crop-size check. -/
def ds4 : Dataset := Dataset.ofValidated 1 raw4.pix3 marker4 none 64

/-- A 1×2 marker image holding values 1 and 2 and no 0 pixel. -/
def marker2g : Grid2 Nat := ⟨1, 2, fun _ j => j + 1⟩

/-- A 1×2 raw image. -/
def raw2 : RawImg := .two 1 2 (fun _ j => (j : ℚ))

/-- The dataset built from the 1×2 images with crop size 1. -/
def ds2 : Dataset := Dataset.ofValidated 1 raw2.pix3 marker2g none 1

/-- The spec's worked example: a 100×100 marker image with a single object of
identity 1 occupying rows 40–45 and columns 40–45 (inclusive). -/
def markerC9 : Grid2 Nat :=
  ⟨100, 100, fun i j => if 40 ≤ i ∧ i ≤ 45 ∧ 40 ≤ j ∧ j ≤ 45 then 1 else 0⟩

/-- A 100×100 non-constant raw image for the worked example. -/
def rawC9 : RawImg := .two 100 100 (fun i _ => (i : ℚ))

/-- The dataset of the spec's worked example (crop size 64, no label). -/
def dsC9 : Dataset := Dataset.ofValidated 1 rawC9.pix3 markerC9 none 64

/-- The single Patch Record of `dsC9`, with every window quantity evaluated:
window top-left (11, 11), full 64×64×2 data tensor whose last channel is the
object mask. -/
def pC9x : Patch :=
  { coord := (11, 11)
    dataH := 64
    dataW := 64
    dataC := 2
    data := fun i j ch =>
      if ch < 1 then normalize3 100 100 rawC9.pix3 (11 + i) (11 + j) ch
      else if markerC9.pix (11 + i) (11 + j) == 1 then 1 else 0
    label := none }

/-! ## Helper lemmas -/

/-- A successful `Dataset.__init__` yields exactly the validated-construction
state. -/
theorem mkDataset_ok {raw : RawImg} {marker : Grid2 Nat} {lab : Option (Grid2 Nat)}
    {S : Nat} {ds : Dataset} (h : mkDataset raw marker lab S = .ok ds) :
    ds = Dataset.ofValidated raw.channels raw.pix3 marker lab S := by
  unfold mkDataset at h
  split at h
  · exact absurd h (by simp)
  · exact (Except.ok.inj h).symm

/-- The median of `(0, x, hi)` lies in `[0, hi]` whenever `hi` is
nonnegative. -/
theorem med3_zero_bounds (x hi : Int) (h : 0 ≤ hi) :
    0 ≤ med3 0 x hi ∧ med3 0 x hi ≤ hi := by
  simp only [med3, max_def, min_def]
  split_ifs <;> omega

/-- With a nonnegative upper bound, `sorted((0, x, hi))[1]` is exactly the
spec's `clamp(x, 0, hi)`. -/
theorem med3_eq_clamp (x hi : Int) (h : 0 ≤ hi) : med3 0 x hi = clamp x 0 hi := by
  simp only [med3, clamp, max_def, min_def]
  split_ifs <;> omega

/-- A slice whose window fits inside the axis selects exactly `size`
elements. -/
theorem sliceLen_of_fit (n : Nat) (c : Int) (size : Nat) (h0 : 0 ≤ c)
    (h1 : c + size ≤ n) : sliceLen n c size = size := by
  simp only [sliceLen, sliceBound]
  split_ifs <;> omega

/-- The patch tensor of `create_patches` has shape exactly
`crop_size × crop_size × (C+1)` when the crop size fits in the image. -/
theorem createPatch_shape (H W C : Nat) (img : Nat → Nat → Nat → ℚ)
    (marker : Nat → Nat → Nat) (lab : Option (Nat → Nat → Nat)) (S ind : Nat)
    (hH : S ≤ H) (hW : S ≤ W) :
    (createPatch H W C img marker lab S ind).dataH = S ∧
      (createPatch H W C img marker lab S ind).dataW = S ∧
      (createPatch H W C img marker lab S ind).dataC = C + 1 := by
  have hH0 : (0 : Int) ≤ (H : Int) - S := by omega
  have hW0 : (0 : Int) ≤ (W : Int) - S := by omega
  obtain ⟨hb0, hb1⟩ := med3_zero_bounds
    ((centerOfMass H W (fun i j => marker i j == ind)).1 - (S / 2 : Nat)) ((H : Int) - S) hH0
  obtain ⟨hc0, hc1⟩ := med3_zero_bounds
    ((centerOfMass H W (fun i j => marker i j == ind)).2 - (S / 2 : Nat)) ((W : Int) - S) hW0
  refine ⟨?_, ?_, rfl⟩
  · exact sliceLen_of_fit H _ S hb0 (by omega)
  · exact sliceLen_of_fit W _ S hc0 (by omega)

/-- The stored coordinate of a patch, by definition of `create_patches`. -/
theorem createPatch_coord (H W C : Nat) (img : Nat → Nat → Nat → ℚ)
    (marker : Nat → Nat → Nat) (lab : Option (Nat → Nat → Nat)) (S ind : Nat) :
    (createPatch H W C img marker lab S ind).coord =
      (med3 0 ((centerOfMass H W (fun i j => marker i j == ind)).1 - (S / 2 : Nat))
        ((H : Int) - S),
       med3 0 ((centerOfMass H W (fun i j => marker i j == ind)).2 - (S / 2 : Nat))
        ((W : Int) - S)) := rfl

/-- Folding `min` never rises above the start value. -/
theorem foldl_min_le_init (xs : List ℚ) (x : ℚ) : xs.foldl min x ≤ x := by
  induction xs generalizing x with
  | nil => exact le_refl x
  | cons a xs ih => exact le_trans (ih (min x a)) (min_le_left x a)

/-- Folding `min` never rises above any list element. -/
theorem foldl_min_le_mem (xs : List ℚ) : ∀ (x a : ℚ), a ∈ xs → xs.foldl min x ≤ a := by
  induction xs with
  | nil => intro x a h; cases h
  | cons b xs ih =>
    intro x a h
    simp only [List.foldl_cons]
    rcases List.mem_cons.mp h with hb | hm
    · subst hb; exact le_trans (foldl_min_le_init xs (min x a)) (min_le_right x a)
    · exact ih (min x b) a hm

/-- `np.min` is a lower bound of the list. -/
theorem listMin_le {l : List ℚ} {a : ℚ} (h : a ∈ l) : listMin l ≤ a := by
  cases l with
  | nil => cases h
  | cons x xs =>
    rcases List.mem_cons.mp h with hx | hm
    · exact hx ▸ foldl_min_le_init xs x
    · exact foldl_min_le_mem xs x a hm

/-- Folding `max` never falls below the start value. -/
theorem le_foldl_max_init (xs : List ℚ) (x : ℚ) : x ≤ xs.foldl max x := by
  induction xs generalizing x with
  | nil => exact le_refl x
  | cons a xs ih => exact le_trans (le_max_left x a) (ih (max x a))

/-- Folding `max` never falls below any list element. -/
theorem le_foldl_max_mem (xs : List ℚ) : ∀ (x a : ℚ), a ∈ xs → a ≤ xs.foldl max x := by
  induction xs with
  | nil => intro x a h; cases h
  | cons b xs ih =>
    intro x a h
    simp only [List.foldl_cons]
    rcases List.mem_cons.mp h with hb | hm
    · subst hb; exact le_trans (le_max_right x a) (le_foldl_max_init xs (max x a))
    · exact ih (max x b) a hm

/-- `np.max` is an upper bound of the list. -/
theorem le_listMax {l : List ℚ} {a : ℚ} (h : a ∈ l) : a ≤ listMax l := by
  cases l with
  | nil => cases h
  | cons x xs =>
    rcases List.mem_cons.mp h with hx | hm
    · exact hx ▸ le_foldl_max_init xs x
    · exact le_foldl_max_mem xs x a hm

/-- A fold of `min` commutes with a `min`-preserving map. -/
theorem foldl_min_map (f : ℚ → ℚ) (hf : ∀ a b, f (min a b) = min (f a) (f b))
    (xs : List ℚ) (x : ℚ) : (xs.map f).foldl min (f x) = f (xs.foldl min x) := by
  induction xs generalizing x with
  | nil => rfl
  | cons a xs ih => simpa [← hf] using ih (min x a)

/-- `np.min` commutes with a `min`-preserving map of the data. -/
theorem listMin_map (f : ℚ → ℚ) (hf : ∀ a b, f (min a b) = min (f a) (f b))
    (l : List ℚ) (hl : l ≠ []) : listMin (l.map f) = f (listMin l) := by
  cases l with
  | nil => exact absurd rfl hl
  | cons x xs => exact foldl_min_map f hf xs x

/-- A fold of `max` commutes with a `max`-preserving map. -/
theorem foldl_max_map (f : ℚ → ℚ) (hf : ∀ a b, f (max a b) = max (f a) (f b))
    (xs : List ℚ) (x : ℚ) : (xs.map f).foldl max (f x) = f (xs.foldl max x) := by
  induction xs generalizing x with
  | nil => rfl
  | cons a xs ih => simpa [← hf] using ih (max x a)

/-- `np.max` commutes with a `max`-preserving map of the data. -/
theorem listMax_map (f : ℚ → ℚ) (hf : ∀ a b, f (max a b) = max (f a) (f b))
    (l : List ℚ) (hl : l ≠ []) : listMax (l.map f) = f (listMax l) := by
  cases l with
  | nil => exact absurd rfl hl
  | cons x xs => exact foldl_max_map f hf xs x

/-- Membership in a channel plane: every in-range pixel value occurs. -/
theorem gridValsQ_mem (H W : Nat) (f : Nat → Nat → ℚ) (i j : Nat) (hi : i < H)
    (hj : j < W) : f i j ∈ gridValsQ H W f := by
  simp only [gridValsQ, List.mem_flatMap, List.mem_map, List.mem_range]
  exact ⟨i, hi, j, hj, rfl⟩

/-- A pointwise post-composition of the pixel function maps the channel
plane's value list. -/
theorem gridValsQ_comp (H W : Nat) (f : Nat → Nat → ℚ) (g : ℚ → ℚ) :
    gridValsQ H W (fun i j => g (f i j)) = (gridValsQ H W f).map g := by
  simp [gridValsQ, List.map_flatMap, Function.comp_def]

/-- A nonempty image has a nonempty channel plane list. -/
theorem gridValsQ_ne_nil (H W : Nat) (f : Nat → Nat → ℚ) (hH : 0 < H) (hW : 0 < W) :
    gridValsQ H W f ≠ [] :=
  List.ne_nil_of_mem (gridValsQ_mem H W f 0 0 hH hW)

/-- `ds10` stores at least one Patch Record. -/
theorem ds10_len : 0 < ds10.patch_set.length := by decide

/-! ## Claims -/

/-- C1: for every valid construction (images of matching shape, crop size at
most `min(H, W)`), every stored Patch Record's data tensor has shape exactly
`(crop_size, crop_size, C + 1)`, where `C` is the number of raw channels,
regardless of how close the object lies to the image border. -/
theorem C1_patch_data_shape (raw : RawImg) (marker : Grid2 Nat)
    (lab : Option (Grid2 Nat)) (S : Nat) (ds : Dataset)
    (h : mkDataset raw marker lab S = .ok ds) (hH : S ≤ ds.H) (hW : S ≤ ds.W) :
    ∀ kp ∈ ds.patch_set, kp.2.dataH = S ∧ kp.2.dataW = S ∧ kp.2.dataC = ds.C + 1 := by
  obtain rfl := mkDataset_ok h
  have hH2 : S ≤ marker.H := hH
  have hW2 : S ≤ marker.W := hW
  intro kp hkp
  have hkp2 : kp ∈ (markerIndices marker).map fun ind =>
      (ind, createPatch marker.H marker.W raw.channels
        (normalize3 marker.H marker.W raw.pix3) marker.pix (lab.map Grid2.pix) S ind) := hkp
  rcases List.mem_map.mp hkp2 with ⟨ind, _, rfl⟩
  exact createPatch_shape marker.H marker.W raw.channels _ _ _ S ind hH2 hW2

/-- Witness for C1 at the concrete dataset `ds10` (crop size 4 on a 10×10
image). -/
theorem C1_patch_data_shape_witness :
    mkDataset raw10 marker10 none 4 = .ok ds10 ∧ 4 ≤ ds10.H ∧ 4 ≤ ds10.W ∧
      ((ds10.patch_set.get ⟨0, ds10_len⟩).2.dataH = 4 ∧
       (ds10.patch_set.get ⟨0, ds10_len⟩).2.dataW = 4 ∧
       (ds10.patch_set.get ⟨0, ds10_len⟩).2.dataC = ds10.C + 1) :=
  ⟨rfl, by decide, by decide,
   C1_patch_data_shape raw10 marker10 none 4 ds10 rfl (by decide) (by decide)
     (ds10.patch_set.get ⟨0, ds10_len⟩) (List.get_mem ds10.patch_set 0 ds10_len)⟩

/-- C3: every stored coordinate equals, per axis, the centroid minus
`crop_size // 2` clamped into `[0, dimension − crop_size]`, and hence lies in
that interval whenever the crop size fits the image. -/
theorem C3_coordinate_clamped (raw : RawImg) (marker : Grid2 Nat)
    (lab : Option (Grid2 Nat)) (S : Nat) (ds : Dataset)
    (h : mkDataset raw marker lab S = .ok ds) (hH : S ≤ ds.H) (hW : S ≤ ds.W) :
    ∀ kp ∈ ds.patch_set,
      (kp.2.coord.1 =
          clamp ((centerOfMass ds.H ds.W (fun i j => ds.marker i j == kp.1)).1 -
            (S / 2 : Nat)) 0 ((ds.H : Int) - S) ∧
        kp.2.coord.2 =
          clamp ((centerOfMass ds.H ds.W (fun i j => ds.marker i j == kp.1)).2 -
            (S / 2 : Nat)) 0 ((ds.W : Int) - S)) ∧
      0 ≤ kp.2.coord.1 ∧ kp.2.coord.1 ≤ (ds.H : Int) - S ∧
      0 ≤ kp.2.coord.2 ∧ kp.2.coord.2 ≤ (ds.W : Int) - S := by
  obtain rfl := mkDataset_ok h
  have hH2 : S ≤ marker.H := hH
  have hW2 : S ≤ marker.W := hW
  have hH0 : (0 : Int) ≤ (marker.H : Int) - S := by omega
  have hW0 : (0 : Int) ≤ (marker.W : Int) - S := by omega
  intro kp hkp
  have hkp2 : kp ∈ (markerIndices marker).map fun ind =>
      (ind, createPatch marker.H marker.W raw.channels
        (normalize3 marker.H marker.W raw.pix3) marker.pix (lab.map Grid2.pix) S ind) := hkp
  rcases List.mem_map.mp hkp2 with ⟨ind, _, rfl⟩
  obtain ⟨hb0, hb1⟩ := med3_zero_bounds
    ((centerOfMass marker.H marker.W (fun i j => marker.pix i j == ind)).1 - (S / 2 : Nat))
    ((marker.H : Int) - S) hH0
  obtain ⟨hc0, hc1⟩ := med3_zero_bounds
    ((centerOfMass marker.H marker.W (fun i j => marker.pix i j == ind)).2 - (S / 2 : Nat))
    ((marker.W : Int) - S) hW0
  exact ⟨⟨med3_eq_clamp _ _ hH0, med3_eq_clamp _ _ hW0⟩, hb0, hb1, hc0, hc1⟩

/-- Witness for C3 at the concrete dataset `ds10`. -/
theorem C3_coordinate_clamped_witness :
    mkDataset raw10 marker10 none 4 = .ok ds10 ∧ 4 ≤ ds10.H ∧ 4 ≤ ds10.W ∧
      (((ds10.patch_set.get ⟨0, ds10_len⟩).2.coord.1 =
          clamp ((centerOfMass ds10.H ds10.W
            (fun i j => ds10.marker i j == (ds10.patch_set.get ⟨0, ds10_len⟩).1)).1 -
              (4 / 2 : Nat)) 0 ((ds10.H : Int) - 4) ∧
        (ds10.patch_set.get ⟨0, ds10_len⟩).2.coord.2 =
          clamp ((centerOfMass ds10.H ds10.W
            (fun i j => ds10.marker i j == (ds10.patch_set.get ⟨0, ds10_len⟩).1)).2 -
              (4 / 2 : Nat)) 0 ((ds10.W : Int) - 4)) ∧
       0 ≤ (ds10.patch_set.get ⟨0, ds10_len⟩).2.coord.1 ∧
       (ds10.patch_set.get ⟨0, ds10_len⟩).2.coord.1 ≤ (ds10.H : Int) - 4 ∧
       0 ≤ (ds10.patch_set.get ⟨0, ds10_len⟩).2.coord.2 ∧
       (ds10.patch_set.get ⟨0, ds10_len⟩).2.coord.2 ≤ (ds10.W : Int) - 4) :=
  ⟨rfl, by decide, by decide,
   C3_coordinate_clamped raw10 marker10 none 4 ds10 rfl (by decide) (by decide)
     (ds10.patch_set.get ⟨0, ds10_len⟩) (List.get_mem ds10.patch_set 0 ds10_len)⟩

/-- C4 (counterexample): a 3-D raw image with a trailing channel axis and a
2-D marker of the same spatial size (4×4) is rejected by construction —
`data_img.shape != marker_img.shape` compares the full shape tuples
`(4, 4, 2)` and `(4, 4)` — refuting the claim that such a construction
succeeds. -/
theorem C4_construction_counterexample :
    mkDataset (RawImg.three 4 4 2 fun _ _ _ => 0) marker4 none 64 =
        .error "Image size not match each other" ∧
      ¬∃ ds, mkDataset (RawImg.three 4 4 2 fun _ _ _ => 0) marker4 none 64 = .ok ds := by
  refine ⟨rfl, ?_⟩
  rintro ⟨ds, h⟩
  rw [show mkDataset (RawImg.three 4 4 2 fun _ _ _ => 0) marker4 none 64 =
    .error "Image size not match each other" from rfl] at h
  exact absurd h (by simp)

/-- C4 (amended): construction succeeds exactly when the raw image's full
shape tuple (including any channel axis) equals the marker image's shape and,
when a label image is supplied, the label image's shape; otherwise it fails
with the ValidationError and produces nothing. -/
theorem C4_construction_validation (raw : RawImg) (marker : Grid2 Nat)
    (lab : Option (Grid2 Nat)) (S : Nat) :
    ((∃ ds, mkDataset raw marker lab S = .ok ds) ↔
        shapeMismatch raw marker lab = false) ∧
      ((mkDataset raw marker lab S = .error "Image size not match each other") ↔
        shapeMismatch raw marker lab = true) := by
  unfold mkDataset
  cases h : shapeMismatch raw marker lab <;> simp

/-- C5: label-paired enumeration fails with the StateError whenever no label
image was supplied at construction, and with a label image it yields exactly
the `(data, label)` pairs of the stored records, coordinate omitted. -/
theorem C5_generator_with_label (raw : RawImg) (marker : Grid2 Nat)
    (lab : Option (Grid2 Nat)) (S : Nat) (ds : Dataset)
    (h : mkDataset raw marker lab S = .ok ds) :
    (lab = none → ds.generatorWithLabel = .error "Lable Image not set.") ∧
      ∀ L, lab = some L →
        ds.generatorWithLabel = .ok (ds.patch_set.map fun kp => (kp.2.data, kp.2.label)) := by
  obtain rfl := mkDataset_ok h
  constructor
  · rintro rfl
    rfl
  · rintro L rfl
    rfl

/-- Witness for C5: with no label image the enumeration fails every time
(`ds10`), and with a label image (`dsL10`) it yields the stored pairs. -/
theorem C5_generator_with_label_witness :
    (mkDataset raw10 marker10 none 4 = .ok ds10 ∧
      ds10.generatorWithLabel = .error "Lable Image not set.") ∧
      (mkDataset raw10 marker10 (some marker10) 4 = .ok dsL10 ∧
        dsL10.generatorWithLabel =
          .ok (dsL10.patch_set.map fun kp => (kp.2.data, kp.2.label))) :=
  ⟨⟨rfl, (C5_generator_with_label raw10 marker10 none 4 ds10 rfl).1 rfl⟩,
   ⟨rfl, (C5_generator_with_label raw10 marker10 (some marker10) 4 dsL10 rfl).2
      marker10 rfl⟩⟩

/-- C2 (code evaluated at the failing input): the 1×2 marker holding values
`[1, 2]` and no 0 pixel.  `np.unique(marker)[1:]` drops the smallest distinct
value, here the genuine object identity 1, so the stored keys are `[2]`
although the distinct positive marker values are `[1, 2]`. -/
theorem C2_keys_drop_smallest :
    mkDataset raw2 marker2g none 1 = .ok ds2 ∧
      ds2.patch_set.map Prod.fst = [2] ∧
      distinctPositives marker2g = [1, 2] := by
  refine ⟨rfl, ?_, by decide⟩
  decide

/-- C10: with a 4×4 image and default crop size 64 the construction succeeds
(no crop-size check exists), and the single stored record's data tensor is
4×4×2 — fewer than the 64×64×2 elements the crop size would demand, because
the out-of-range slice silently truncates. -/
theorem C10_oversized_crop_truncates :
    mkDataset raw4 marker4 none 64 = .ok ds4 ∧
      min ds4.H ds4.W < 64 ∧
      ds4.patch_set.map (fun kp => (kp.2.dataH, kp.2.dataW, kp.2.dataC)) = [(4, 4, 2)] ∧
      4 * 4 * 2 < 64 * 64 * 2 := by
  exact ⟨rfl, by decide, by decide, by decide⟩

/-- Min–max normalization of a list with at least two distinct values: the
shifted-then-scaled list has minimum 0 and maximum 1. -/
theorem minmax_normalized (l : List ℚ) (hnil : l ≠ []) (p q : ℚ) (hp : p ∈ l)
    (hq : q ∈ l) (hpq : p ≠ q) :
    listMin ((l.map fun x => x - listMin l).map
        (fun y => y / listMax (l.map fun x => x - listMin l))) = 0 ∧
      listMax ((l.map fun x => x - listMin l).map
        (fun y => y / listMax (l.map fun x => x - listMin l))) = 1 := by
  have hMsub : listMax (l.map fun x => x - listMin l) = listMax l - listMin l :=
    listMax_map _ (fun a b => (max_sub_sub_right a b _).symm) l hnil
  have hp1 := listMin_le hp
  have hp2 := le_listMax hp
  have hq1 := listMin_le hq
  have hq2 := le_listMax hq
  have hpos : 0 < listMax l - listMin l := by
    rcases lt_or_le (listMin l) (listMax l) with h | h
    · linarith
    · exact absurd (le_antisymm (by linarith) (by linarith)) hpq
  have hmapnil : (l.map fun x => x - listMin l) ≠ [] := by
    intro h
    exact hnil (List.map_eq_nil_iff.mp h)
  rw [hMsub]
  constructor
  · rw [listMin_map _ (fun a b => (min_div_div_right hpos.le a b).symm) _ hmapnil,
      listMin_map _ (fun a b => (min_sub_sub_right a b _).symm) l hnil]
    simp
  · rw [listMax_map _ (fun a b => (max_div_div_right hpos.le a b).symm) _ hmapnil,
      listMax_map _ (fun a b => (max_sub_sub_right a b _).symm) l hnil,
      div_self (ne_of_gt hpos)]

/-- C8: for every raw image and channel whose values are not all equal, the
normalized channel — minimum subtracted, then divided by the post-subtraction
maximum — has minimum exactly 0 and maximum exactly 1. -/
theorem C8_normalization_range (H W : Nat) (pix : Nat → Nat → Nat → ℚ) (c : Nat)
    (hH : 0 < H) (hW : 0 < W)
    (hne : ∃ i j k l, i < H ∧ j < W ∧ k < H ∧ l < W ∧ pix i j c ≠ pix k l c) :
    listMin (gridValsQ H W (fun a b => normalize3 H W pix a b c)) = 0 ∧
      listMax (gridValsQ H W (fun a b => normalize3 H W pix a b c)) = 1 := by
  obtain ⟨i, j, k, l, hi, hj, hk, hl, hpq⟩ := hne
  have hnil : gridValsQ H W (fun a b => pix a b c) ≠ [] :=
    gridValsQ_ne_nil H W _ hH hW
  have e2 : gridValsQ H W (chanShift H W pix c)
      = (gridValsQ H W (fun a b => pix a b c)).map
          (fun x => x - listMin (gridValsQ H W (fun a b => pix a b c))) :=
    gridValsQ_comp H W (fun a b => pix a b c)
      (fun x => x - listMin (gridValsQ H W (fun a b => pix a b c)))
  have step1 : gridValsQ H W (fun a b => normalize3 H W pix a b c)
      = (gridValsQ H W (chanShift H W pix c)).map
          (fun y => y / listMax (gridValsQ H W (chanShift H W pix c))) :=
    gridValsQ_comp H W (chanShift H W pix c)
      (fun y => y / listMax (gridValsQ H W (chanShift H W pix c)))
  rw [step1, e2]
  exact minmax_normalized (gridValsQ H W (fun a b => pix a b c)) hnil
    (pix i j c) (pix k l c)
    (gridValsQ_mem H W (fun a b => pix a b c) i j hi hj)
    (gridValsQ_mem H W (fun a b => pix a b c) k l hk hl) hpq

/-- A 1×2 single-channel image with the two distinct values 0 and 2. -/
def pix2w : Nat → Nat → Nat → ℚ := fun _ j _ => if j = 1 then 2 else 0

/-- Witness for C8 at the concrete 1×2 channel `[0, 2]`. -/
theorem C8_normalization_range_witness :
    (0 < 1 ∧ 0 < 2 ∧
      ∃ i j k l, i < 1 ∧ j < 2 ∧ k < 1 ∧ l < 2 ∧ pix2w i j 0 ≠ pix2w k l 0) ∧
      listMin (gridValsQ 1 2 (fun a b => normalize3 1 2 pix2w a b 0)) = 0 ∧
      listMax (gridValsQ 1 2 (fun a b => normalize3 1 2 pix2w a b 0)) = 1 :=
  ⟨⟨by decide, by decide, 0, 1, 0, 0, by decide, by decide, by decide, by decide,
      by decide⟩,
   C8_normalization_range 1 2 pix2w 0 (by decide) (by decide)
     ⟨0, 1, 0, 0, by decide, by decide, by decide, by decide, by decide⟩⟩

/-- C6: for every draw of randomized local-area sampling whose anchor lies in
the admissible range `[0, dim − area_size − crop_size)` (the contract of
`rng.integers`), the selection is exactly the stored records whose coordinate
lies in the half-open area rectangle; the stacked data count and the
coordinate count both equal the selection count; and every yielded relative
coordinate lies in `[0, area_size)` on both axes. -/
theorem C6_area_sampling (ds : Dataset) (area : Nat) (a0 a1 : Int)
    (h0 : 0 ≤ a0 ∧ a0 < (ds.H : Int) - area - ds.crop_size)
    (h1 : 0 ≤ a1 ∧ a1 < (ds.W : Int) - area - ds.crop_size) :
    (∀ kp, kp ∈ ds.areaSelect area a0 a1 ↔
        kp ∈ ds.patch_set ∧ a0 ≤ kp.2.coord.1 ∧ kp.2.coord.1 < a0 + (area : Int) ∧
          a1 ≤ kp.2.coord.2 ∧ kp.2.coord.2 < a1 + (area : Int)) ∧
      ∀ d rc, ds.areaDraw area a0 a1 = .ok (d, rc) →
        d.length = (ds.areaSelect area a0 a1).length ∧
          rc.length = (ds.areaSelect area a0 a1).length ∧
          ∀ m ∈ rc, 0 ≤ m.1 ∧ m.1 < (area : Int) ∧ 0 ≤ m.2 ∧ m.2 < (area : Int) := by
  constructor
  · intro kp
    constructor
    · intro hm
      have h2 := List.mem_filter.mp hm
      have h3 := h2.2
      simp only [isWithin, Bool.and_eq_true, decide_eq_true_eq] at h3
      obtain ⟨⟨⟨g1, g2⟩, g3⟩, g4⟩ := h3
      exact ⟨h2.1, g1, g2, g3, g4⟩
    · intro hm
      refine List.mem_filter.mpr ⟨hm.1, ?_⟩
      simp only [isWithin, Bool.and_eq_true, decide_eq_true_eq]
      exact ⟨⟨⟨hm.2.1, hm.2.2.1⟩, hm.2.2.2.1⟩, hm.2.2.2.2⟩
  · intro d rc h
    simp only [Dataset.areaDraw] at h
    split at h
    · simp only [Except.ok.injEq, Prod.mk.injEq] at h
      obtain ⟨hd, hrc⟩ := h
      subst hd
      subst hrc
      refine ⟨by simp, by simp, ?_⟩
      intro m hm
      rcases List.mem_map.mp hm with ⟨cv, hcv, rfl⟩
      rcases List.mem_map.mp hcv with ⟨kp, hkp, rfl⟩
      have h3 := (List.mem_filter.mp hkp).2
      simp only [isWithin, Bool.and_eq_true, decide_eq_true_eq] at h3
      obtain ⟨⟨⟨g1, g2⟩, g3⟩, g4⟩ := h3
      exact ⟨by omega, by omega, by omega, by omega⟩
    · exact absurd h (by simp)

/-- Witness for C6 at `ds10`, area size 2, anchor (0, 0). -/
theorem C6_area_sampling_witness :
    ((0 ≤ (0 : Int) ∧ (0 : Int) < (ds10.H : Int) - 2 - ds10.crop_size) ∧
      (0 ≤ (0 : Int) ∧ (0 : Int) < (ds10.W : Int) - 2 - ds10.crop_size)) ∧
      ((∀ kp, kp ∈ ds10.areaSelect 2 0 0 ↔
          kp ∈ ds10.patch_set ∧ 0 ≤ kp.2.coord.1 ∧ kp.2.coord.1 < 0 + (2 : Int) ∧
            0 ≤ kp.2.coord.2 ∧ kp.2.coord.2 < 0 + (2 : Int)) ∧
        ∀ d rc, ds10.areaDraw 2 0 0 = .ok (d, rc) →
          d.length = (ds10.areaSelect 2 0 0).length ∧
            rc.length = (ds10.areaSelect 2 0 0).length ∧
            ∀ m ∈ rc, 0 ≤ m.1 ∧ m.1 < (2 : Int) ∧ 0 ≤ m.2 ∧ m.2 < (2 : Int)) :=
  ⟨⟨⟨by decide, by decide⟩, ⟨by decide, by decide⟩⟩,
   C6_area_sampling ds10 2 0 0 ⟨by decide, by decide⟩ ⟨by decide, by decide⟩⟩

/-- C7 (code evaluated at the failing input): in `ds10` the single stored
record has coordinate (6, 6), outside the area rectangle anchored at the
valid draw (0, 0) with `area_size = 2` (valid since 10 − 2 − 4 = 4 > 0).
Zero records are selected, so `np.array([])` has shape `(0,)`, which does not
broadcast against `np.array([a0, a1])` of shape `(2,)`: the draw raises
instead of yielding an empty stack. -/
theorem C7_empty_selection_crashes :
    mkDataset raw10 marker10 none 4 = .ok ds10 ∧
      (0 ≤ (0 : Int) ∧ (0 : Int) < (ds10.H : Int) - 2 - ds10.crop_size) ∧
      ds10.areaSelect 2 0 0 = [] ∧
      ds10.areaDraw 2 0 0 = .error "operands could not be broadcast together" :=
  ⟨rfl, ⟨by decide, by decide⟩, rfl, rfl⟩

/-- Membership in the tail-recursive dedup: exactly the accumulator's and the
list's elements. -/
theorem mem_dedupAcc (l : List Nat) : ∀ (acc : List Nat) (x : Nat),
    x ∈ dedupAcc acc l ↔ x ∈ acc ∨ x ∈ l := by
  induction l with
  | nil => intro acc x; simp [dedupAcc]
  | cons a as ih =>
    intro acc x
    simp only [dedupAcc]
    split
    case isTrue h =>
      rw [ih]
      have h2 : x = a → x ∈ acc := fun e => e ▸ h
      simp only [List.mem_cons]
      tauto
    case isFalse h =>
      rw [ih]
      simp only [List.mem_cons]
      tauto

/-- The tail-recursive dedup keeps the accumulator duplicate-free. -/
theorem nodup_dedupAcc (l : List Nat) : ∀ acc : List Nat, acc.Nodup →
    (dedupAcc acc l).Nodup := by
  induction l with
  | nil => intro acc h; exact h
  | cons a as ih =>
    intro acc h
    simp only [dedupAcc]
    split
    case isTrue h2 => exact ih acc h
    case isFalse h2 => exact ih (a :: acc) (List.nodup_cons.mpr ⟨h2, h⟩)

/-- Sorted insertion permutes consing. -/
theorem perm_insertSorted (a : Nat) (l : List Nat) : (insertSorted a l).Perm (a :: l) := by
  induction l with
  | nil => exact List.Perm.refl _
  | cons b bs ih =>
    simp only [insertSorted]
    split
    · exact List.Perm.refl _
    · exact (ih.cons b).trans (List.Perm.swap a b bs)

/-- Insertion sort permutes its input. -/
theorem perm_sortNat (l : List Nat) : (sortNat l).Perm l := by
  induction l with
  | nil => exact List.Perm.refl _
  | cons a as ih => exact (perm_insertSorted a (sortNat as)).trans (ih.cons a)

/-- Sorted insertion preserves sortedness. -/
theorem sorted_insertSorted (a : Nat) : ∀ l : List Nat, l.Sorted (· ≤ ·) →
    (insertSorted a l).Sorted (· ≤ ·) := by
  intro l
  induction l with
  | nil => intro _; simp [insertSorted]
  | cons b bs ih =>
    intro h
    simp only [insertSorted]
    split
    case isTrue hab =>
      refine List.sorted_cons.mpr ⟨?_, h⟩
      intro c hc
      rcases List.mem_cons.mp hc with rfl | hc2
      · exact hab
      · exact le_trans hab ((List.sorted_cons.mp h).1 c hc2)
    case isFalse hab =>
      refine List.sorted_cons.mpr ⟨?_, ih (List.sorted_cons.mp h).2⟩
      intro c hc
      rcases List.mem_cons.mp ((perm_insertSorted a bs).mem_iff.mp hc) with rfl | hc2
      · omega
      · exact (List.sorted_cons.mp h).1 c hc2

/-- Insertion sort sorts. -/
theorem sorted_sortNat (l : List Nat) : (sortNat l).Sorted (· ≤ ·) := by
  induction l with
  | nil => simp [sortNat]
  | cons a as ih => exact sorted_insertSorted a (sortNat as) ih

/-- Every in-range pixel value of an integer grid occurs in its value list. -/
theorem gridValsN_mem (g : Grid2 Nat) (i j : Nat) (hi : i < g.H) (hj : j < g.W) :
    g.pix i j ∈ gridValsN g := by
  simp only [gridValsN, List.mem_flatMap, List.mem_map, List.mem_range]
  exact ⟨i, hi, j, hj, rfl⟩

/-- Every element of an integer grid's value list is an in-range pixel
value. -/
theorem gridValsN_mem_elim (g : Grid2 Nat) (x : Nat) (h : x ∈ gridValsN g) :
    ∃ i j, i < g.H ∧ j < g.W ∧ x = g.pix i j := by
  simp only [gridValsN, List.mem_flatMap, List.mem_map, List.mem_range] at h
  obtain ⟨i, hi, j, hj, e⟩ := h
  exact ⟨i, j, hi, hj, e.symm⟩

/-- `np.unique` of a list whose values are exactly 0 and 1 is `[0, 1]`. -/
theorem uniqueSorted_eq_pair (l : List Nat) (h0 : 0 ∈ l) (h1 : 1 ∈ l)
    (hall : ∀ x ∈ l, x = 0 ∨ x = 1) : uniqueSorted l = [0, 1] := by
  have hmem : ∀ x, x ∈ uniqueSorted l ↔ x ∈ l := by
    intro x
    rw [uniqueSorted, (perm_sortNat _).mem_iff, mem_dedupAcc]
    simp
  have hnd : (uniqueSorted l).Nodup :=
    (perm_sortNat (dedupAcc [] l)).symm.nodup (nodup_dedupAcc l [] List.nodup_nil)
  refine List.eq_of_perm_of_sorted ?_ (sorted_sortNat _) (by decide)
  refine List.perm_of_nodup_nodup_toFinset_eq hnd (by decide) ?_
  ext x
  simp only [List.mem_toFinset, hmem]
  constructor
  · intro hx
    rcases hall x hx with rfl | rfl <;> simp
  · intro hx
    rcases List.mem_cons.mp hx with rfl | hx2
    · exact h0
    · rcases List.mem_cons.mp hx2 with rfl | hx3
      · exact h1
      · cases hx3

/-- The worked example's marker has exactly the distinct values 0 and 1, so
`np.unique(marker)[1:]` is `[1]`. -/
theorem markerIndicesC9 : markerIndices markerC9 = [1] := by
  have h := uniqueSorted_eq_pair (gridValsN markerC9) ?h0 ?h1 ?hall
  · rw [markerIndices, h]
    rfl
  case h0 =>
    have hm := gridValsN_mem markerC9 0 0 (by decide) (by decide)
    have e : markerC9.pix 0 0 = 0 := rfl
    rw [e] at hm
    exact hm
  case h1 =>
    have hm := gridValsN_mem markerC9 40 40 (by decide) (by decide)
    have e : markerC9.pix 40 40 = 1 := rfl
    rw [e] at hm
    exact hm
  case hall =>
    intro x hx
    obtain ⟨i, j, _, _, rfl⟩ := gridValsN_mem_elim markerC9 x hx
    by_cases h : 40 ≤ i ∧ i ≤ 45 ∧ 40 ≤ j ∧ j ≤ 45
    · right; simp [markerC9, h]
    · left; simp [markerC9, h]

/-- The single stored record of the worked example is the patch built for
identity 1. -/
theorem dsC9_patch : dsC9.patch_set =
    [(1, createPatch 100 100 1 (normalize3 100 100 rawC9.pix3) markerC9.pix none 64 1)] := by
  simp only [dsC9, Dataset.ofValidated]
  rw [markerIndicesC9]
  simp only [List.map_cons, List.map_nil]
  rfl

/-- C9 (counterexample): on the spec's worked example the computed centroid
is (43, 43) — the 6×6 block at rows/cols 40–45 has mask-weighted mean 42.5,
and `int(42.5 + 0.5) = 43` — so the stored top-left coordinate is (11, 11),
not the (10, 10) the claim states. -/
theorem C9_worked_example_counterexample :
    centerOfMass 100 100 (fun i j => markerC9.pix i j == 1) = (43, 43) ∧
      dsC9.patch_set.map (fun kp => (kp.1, kp.2.coord)) = [(1, (11, 11))] ∧
      ((11 : Int), (11 : Int)) ≠ ((10 : Int), (10 : Int)) := by
  refine ⟨by decide, ?_, by decide⟩
  rw [dsC9_patch]
  decide

/-- C9 (amended): on the worked example the centroid is (43, 43), the window
top-left is (11, 11), the data tensor has shape 64×64×(C+1) with C = 1, and
the mask channel is 1 exactly on the contiguous region at relative rows
29–34 and columns 29–34. -/
theorem C9_worked_example_amended :
    mkDataset rawC9 markerC9 none 64 = .ok dsC9 ∧
      centerOfMass 100 100 (fun i j => markerC9.pix i j == 1) = (43, 43) ∧
      dsC9.patch_set.map (fun kp => (kp.1, kp.2.coord)) = [(1, (11, 11))] ∧
      dsC9.patch_set.map (fun kp => (kp.2.dataH, kp.2.dataW, kp.2.dataC)) = [(64, 64, 2)] ∧
      dsC9.patch_set.map (fun kp =>
        (List.range 64).all fun i => (List.range 64).all fun j =>
          kp.2.data i j 1 ==
            (if 29 ≤ i ∧ i ≤ 34 ∧ 29 ≤ j ∧ j ≤ 34 then (1 : ℚ) else 0)) = [true] := by
  refine ⟨rfl, by decide, ?_, ?_, ?_⟩
  · rw [dsC9_patch]
    decide
  · rw [dsC9_patch]
    have hsh := createPatch_shape 100 100 1 (normalize3 100 100 rawC9.pix3) markerC9.pix
      none 64 1 (by decide) (by decide)
    simp [hsh.1, hsh.2.1, hsh.2.2]
  · rw [dsC9_patch]
    decide
